import Mathlib

/-!
Verification of the CacheForge search loop (`run_loop_docker.py`,
`DB_Connection.py`) against its natural-language specification.

Modelling conventions:
* Python strings are lists of characters (`Str`); character predicates
  (`str.isalnum`, `str.lower`, the `\s` regex class) are modelled by their
  ASCII fragments, which is the fragment the program exercises.
* Python floats are modelled as exact rationals (`ℚ`).
* Python exceptions are modelled with `Option`: `none` is a raised error.
* The sqlite ledger is a list of `Trial` rows; an `INSERT` is an append.
-/

/-- Python strings, modelled as lists of characters. -/
abbrev Str := List Char

/-- ASCII fragment of Python `str.isalnum` (one character): `A`-`Z`, `a`-`z`, `0`-`9`. -/
def isalnum (c : Char) : Bool :=
  (65 ≤ c.toNat && c.toNat ≤ 90) || (97 ≤ c.toNat && c.toNat ≤ 122) ||
    (48 ≤ c.toNat && c.toNat ≤ 57)

/-- ASCII fragment of Python `str.lower` on one character: map `A`-`Z` to `a`-`z`. -/
def lowerChar (c : Char) : Char :=
  if h : 65 ≤ c.toNat ∧ c.toNat ≤ 90 then
    Char.ofNatAux (c.toNat + 32) (Or.inl (by omega))
  else c

/-- Python `str.strip("_")`: drop leading and trailing underscores. -/
def stripUnd (l : Str) : Str :=
  ((l.dropWhile (· == '_')).reverse.dropWhile (· == '_')).reverse

/-- Function `sanitize` from `run_loop_docker.py`:
`"".join(c if c.isalnum() else "_" for c in name).strip("_").lower()`. -/
def sanitize (name : Str) : Str :=
  (stripUnd (name.map (fun c => if isalnum c then c else '_'))).map lowerChar

/-- Character class `[a-z0-9_]` claimed for `sanitize` output. -/
def sanitizedChar (c : Char) : Bool :=
  (97 ≤ c.toNat && c.toNat ≤ 122) || (48 ≤ c.toNat && c.toNat ≤ 57) || (c.toNat == 95)

theorem lowerChar_toNat_of_upper (c : Char) (h : 65 ≤ c.toNat ∧ c.toNat ≤ 90) :
    (lowerChar c).toNat = c.toNat + 32 := by
  simp [lowerChar, h]
  rfl

theorem lowerChar_eq_self (c : Char) (h : ¬ (65 ≤ c.toNat ∧ c.toNat ≤ 90)) :
    lowerChar c = c := by
  simp [lowerChar, h]

theorem char_toNat_inj {c d : Char} (h : c.toNat = d.toNat) : c = d := by
  apply Char.ext
  apply UInt32.ext
  exact h

theorem toNat_ne_of_ne {c d : Char} (h : c.toNat ≠ d.toNat) : c ≠ d := by
  intro e
  exact h (by rw [e])

theorem underscore_toNat : ('_' : Char).toNat = 95 := by decide

theorem lowerChar_sanitizedChar {c : Char} (h : isalnum c = true) :
    sanitizedChar (lowerChar c) = true := by
  by_cases hu : 65 ≤ c.toNat ∧ c.toNat ≤ 90
  · have ht := lowerChar_toNat_of_upper c hu
    simp [sanitizedChar, ht]
    omega
  · rw [lowerChar_eq_self c hu]
    simp [isalnum] at h
    simp [sanitizedChar]
    omega

theorem lowerChar_ne_underscore {c : Char} (h : c ≠ '_') : lowerChar c ≠ '_' := by
  by_cases hu : 65 ≤ c.toNat ∧ c.toNat ≤ 90
  · have ht := lowerChar_toNat_of_upper c hu
    apply toNat_ne_of_ne
    rw [ht, underscore_toNat]
    omega
  · rw [lowerChar_eq_self c hu]
    exact h

theorem lowerChar_eq_self_of_sanitized {c : Char} (h : sanitizedChar c = true) :
    lowerChar c = c := by
  apply lowerChar_eq_self
  simp [sanitizedChar] at h
  omega

theorem isalnum_of_sanitized_ne_underscore {c : Char} (h : sanitizedChar c = true)
    (hne : c ≠ '_') : isalnum c = true := by
  have h95 : c.toNat ≠ 95 := by
    intro e
    exact hne (char_toNat_inj (by rw [e, underscore_toNat]))
  simp [sanitizedChar] at h
  simp [isalnum]
  omega

theorem head_dropWhile_underscore (l : Str) :
    ∀ c, ((l.dropWhile (· == '_')).head? = some c) → c ≠ '_' := by
  induction l with
  | nil => intro c h; simp [List.dropWhile] at h
  | cons a l ih =>
    intro c h
    by_cases ha : a = '_'
    · rw [List.dropWhile_cons_of_pos (by simp [ha])] at h
      exact ih c h
    · rw [List.dropWhile_cons_of_neg (by simp [ha])] at h
      simp at h
      rw [← h]
      exact ha

theorem getLast_dropWhile_eq (q : Char → Bool) :
    ∀ l : Str, l.dropWhile q ≠ [] → (l.dropWhile q).getLast? = l.getLast? := by
  intro l
  induction l with
  | nil => simp [List.dropWhile]
  | cons a l ih =>
    intro h
    by_cases hq : q a
    · rw [List.dropWhile_cons_of_pos hq] at h ⊢
      have hl : l ≠ [] := by
        intro e
        subst e
        simp [List.dropWhile] at h
      rw [ih h]
      cases l with
      | nil => exact absurd rfl hl
      | cons b t => simp [List.getLast?_cons_cons]
    · rw [List.dropWhile_cons_of_neg hq]

theorem mem_stripUnd {c : Char} {l : Str} (h : c ∈ stripUnd l) : c ∈ l := by
  unfold stripUnd at h
  rw [List.mem_reverse] at h
  have h1 := (List.dropWhile_sublist _).subset h
  rw [List.mem_reverse] at h1
  exact (List.dropWhile_sublist _).subset h1

theorem head_stripUnd (l : Str) : ∀ c, (stripUnd l).head? = some c → c ≠ '_' := by
  intro c h
  unfold stripUnd at h
  rw [List.head?_reverse] at h
  by_cases hv : ((l.dropWhile (· == '_')).reverse.dropWhile (· == '_')) = []
  · rw [hv] at h
    simp at h
  · rw [getLast_dropWhile_eq _ _ hv, List.getLast?_reverse] at h
    exact head_dropWhile_underscore l c h

theorem getLast_stripUnd (l : Str) : ∀ c, (stripUnd l).getLast? = some c → c ≠ '_' := by
  intro c h
  unfold stripUnd at h
  rw [List.getLast?_reverse] at h
  exact head_dropWhile_underscore (l.dropWhile (· == '_')).reverse c h

theorem sanitize_mem_class (x : Str) : ∀ c ∈ sanitize x, sanitizedChar c = true := by
  intro c hc
  unfold sanitize at hc
  rw [List.mem_map] at hc
  obtain ⟨c0, hc0, he⟩ := hc
  have hm := mem_stripUnd hc0
  rw [List.mem_map] at hm
  obtain ⟨a, _, ha⟩ := hm
  by_cases hal : isalnum a
  · rw [if_pos hal] at ha
    rw [← he, ← ha]
    exact lowerChar_sanitizedChar hal
  · rw [if_neg hal] at ha
    rw [← he, ← ha]
    decide

theorem sanitize_head (x : Str) : ∀ c, (sanitize x).head? = some c → c ≠ '_' := by
  intro c h
  unfold sanitize at h
  rw [List.head?_map] at h
  cases hs : (stripUnd (x.map fun c => if isalnum c then c else '_')).head? with
  | none => rw [hs] at h; simp at h
  | some c0 =>
    rw [hs] at h
    simp at h
    rw [← h]
    exact lowerChar_ne_underscore (head_stripUnd _ c0 hs)

theorem sanitize_getLast (x : Str) : ∀ c, (sanitize x).getLast? = some c → c ≠ '_' := by
  intro c h
  unfold sanitize at h
  rw [List.getLast?_map] at h
  cases hs : (stripUnd (x.map fun c => if isalnum c then c else '_')).getLast? with
  | none => rw [hs] at h; simp at h
  | some c0 =>
    rw [hs] at h
    simp at h
    rw [← h]
    exact lowerChar_ne_underscore (getLast_stripUnd _ c0 hs)

theorem dropWhile_eq_self_of_head (q : Char → Bool) (l : Str)
    (h : ∀ c, l.head? = some c → q c = false) : l.dropWhile q = l := by
  cases l with
  | nil => rfl
  | cons a l => exact List.dropWhile_cons_of_neg (by simp [h a rfl])

theorem stripUnd_eq_self (l : Str) (h1 : ∀ c, l.head? = some c → c ≠ '_')
    (h2 : ∀ c, l.getLast? = some c → c ≠ '_') : stripUnd l = l := by
  unfold stripUnd
  rw [dropWhile_eq_self_of_head _ l (by intro c hc; simp [h1 c hc])]
  rw [dropWhile_eq_self_of_head _ l.reverse
    (by intro c hc; rw [List.head?_reverse] at hc; simp [h2 c hc])]
  exact List.reverse_reverse l

theorem sanitize_idem (x : Str) : sanitize (sanitize x) = sanitize x := by
  have hclass := sanitize_mem_class x
  have hmap1 : (sanitize x).map (fun c => if isalnum c then c else '_') = sanitize x := by
    rw [show (sanitize x).map (fun c => if isalnum c then c else '_')
          = (sanitize x).map id from List.map_congr_left ?_, List.map_id]
    intro a ha
    by_cases hu : a = '_'
    · subst hu; decide
    · simp [isalnum_of_sanitized_ne_underscore (hclass a ha) hu]
  conv_lhs => rw [sanitize, hmap1]
  rw [stripUnd_eq_self _ (sanitize_head x) (sanitize_getLast x)]
  rw [show (sanitize x).map lowerChar = (sanitize x).map id from List.map_congr_left ?_,
    List.map_id]
  intro a ha
  simp [lowerChar_eq_self_of_sanitized (hclass a ha)]

/-- C7: `sanitize` is idempotent, its output consists only of characters in
`[a-z0-9_]`, and the output never starts or ends with an underscore. -/
theorem sanitize_spec (x : Str) :
    sanitize (sanitize x) = sanitize x
    ∧ (∀ c ∈ sanitize x, sanitizedChar c = true)
    ∧ (∀ c, (sanitize x).head? = some c → c ≠ '_')
    ∧ (∀ c, (sanitize x).getLast? = some c → c ≠ '_') :=
  ⟨sanitize_idem x, sanitize_mem_class x, sanitize_head x, sanitize_getLast x⟩

/-- C7 witness: the general theorem applied at the concrete input `"A b!"`,
whose sanitized form is `"a_b"`. -/
theorem sanitize_spec_witness : ('a' : Char) ≠ '_' :=
  (sanitize_spec ("A b!".data)).2.2.1 'a' (by decide)

/-- C8 counterexample: `"!!!"` is a non-empty input whose sanitized form is
the empty string; the code has no placeholder fallback. -/
theorem sanitize_empty_cex : sanitize ("!!!".data) = [] ∧ ("!!!".data : Str) ≠ [] := by
  constructor
  · rfl
  · decide

theorem mem_dropWhile_of_not (q : Char → Bool) {c : Char} :
    ∀ l : Str, c ∈ l → q c = false → c ∈ l.dropWhile q := by
  intro l
  induction l with
  | nil => intro h; simp at h
  | cons a l ih =>
    intro hm hq
    by_cases hqa : q a
    · rw [List.dropWhile_cons_of_pos hqa]
      rcases List.mem_cons.mp hm with he | hl
      · subst he; rw [hq] at hqa; exact absurd hqa (by simp)
      · exact ih hl hq
    · rw [List.dropWhile_cons_of_neg hqa]
      exact hm

theorem mem_stripUnd_of_ne {c : Char} {l : Str} (hm : c ∈ l) (hne : c ≠ '_') :
    c ∈ stripUnd l := by
  unfold stripUnd
  rw [List.mem_reverse]
  apply mem_dropWhile_of_not
  · rw [List.mem_reverse]
    exact mem_dropWhile_of_not _ l hm (by simp [hne])
  · simp [hne]

/-- C8 amended: `sanitize` output is non-empty exactly when the input contains
at least one (ASCII) alphanumeric character; for non-empty inputs consisting
only of non-alphanumeric characters it returns the empty string and no
placeholder fallback exists. -/
theorem sanitize_ne_empty_iff (x : Str) :
    sanitize x ≠ [] ↔ ∃ c ∈ x, isalnum c = true := by
  constructor
  · intro h
    by_contra hno
    push_neg at hno
    apply h
    unfold sanitize stripUnd
    have hall : ∀ c ∈ x.map (fun c => if isalnum c then c else '_'), (c == '_') = true := by
      intro c hc
      rw [List.mem_map] at hc
      obtain ⟨a, ha, he⟩ := hc
      have : isalnum a ≠ true := by
        intro hx
        exact absurd hx (by simpa using hno a ha)
      rw [if_neg this] at he
      simp [← he]
    rw [List.dropWhile_eq_nil_iff.mpr hall]
    rfl
  · intro ⟨c, hc, hal⟩
    have hcu : c ≠ '_' := by
      intro e
      subst e
      exact absurd hal (by decide)
    have hmem : c ∈ x.map (fun c => if isalnum c then c else '_') := by
      rw [List.mem_map]
      exact ⟨c, hc, by rw [if_pos hal]⟩
    have := mem_stripUnd_of_ne hmem hcu
    intro he
    unfold sanitize at he
    rw [List.map_eq_nil_iff] at he
    rw [he] at this
    simp at this

/-! Section: oracle-reply parsing (`parse_policy_content` in `run_loop_docker.py`).

The three extraction regexes are hand-compiled to deterministic matchers.
For these particular patterns greedy/lazy backtracking is deterministic:
every `\s*`/`\s+` is followed either by a non-whitespace literal (so it is
maximal munch) or, in the header patterns, by the literal `\n` — there the
engine commits to the last newline of the maximal whitespace run provided a
later newline exists for the lazy group `(.*?)\n`, and otherwise backtracks
to the second-to-last newline of the run. -/

/-- ASCII fragment of the regex class `\s` and of Python `str.strip()` whitespace. -/
def isSpace (c : Char) : Bool :=
  c.toNat == 32 || c.toNat == 9 || c.toNat == 10 ||
    c.toNat == 13 || c.toNat == 11 || c.toNat == 12

/-- ASCII decimal digit, the regex class `\d`. -/
def isDigitA (c : Char) : Bool := 48 ≤ c.toNat && c.toNat ≤ 57

/-- Python `str.strip()`: drop leading and trailing whitespace. -/
def stripWs (l : Str) : Str :=
  ((l.dropWhile isSpace).reverse.dropWhile isSpace).reverse

/-- Case-insensitive literal: consume `pat` (compared after ASCII lowering), return the rest. -/
def litCI : Str → Str → Option Str
  | [], s => some s
  | _ :: _, [] => none
  | p :: ps, c :: cs => if lowerChar c == lowerChar p then litCI ps cs else none

/-- Case-sensitive literal: consume `pat`, return the rest. -/
def lit : Str → Str → Option Str
  | [], s => some s
  | _ :: _, [] => none
  | p :: ps, c :: cs => if c == p then lit ps cs else none

/-- The tail `\s*\n(.*?)\n` of the two header patterns (DOTALL), with the
backtracking behaviour described above. -/
def headerTail (r : Str) : Option Str :=
  let w := r.takeWhile isSpace
  let rest2 := r.dropWhile isSpace
  let rev := w.reverse
  let afterRev := rev.takeWhile (fun c => !(c == '\n'))
  let rem1 := rev.dropWhile (fun c => !(c == '\n'))
  match rem1 with
  | [] => none
  | _ :: rem2 =>
    if rest2.any (fun c => c == '\n') then
      some (afterRev.reverse ++ rest2.takeWhile (fun c => !(c == '\n')))
    else
      let betweenRev := rem2.takeWhile (fun c => !(c == '\n'))
      match rem2.dropWhile (fun c => !(c == '\n')) with
      | [] => none
      | _ :: _ => some betweenRev.reverse

/-- Try the pattern `##\s*kw1\s*kw2\s*\n(.*?)\n` (IGNORECASE, DOTALL) at this position. -/
def matchHeaderAt (kw1 kw2 : Str) (s : Str) : Option Str :=
  match litCI ("##".data) s with
  | none => none
  | some r1 =>
    match litCI kw1 (r1.dropWhile isSpace) with
    | none => none
    | some r2 =>
      match litCI kw2 (r2.dropWhile isSpace) with
      | none => none
      | some r3 => headerTail r3

/-- Search (`re.search`) for the header pattern: leftmost matching position. -/
def searchHeader (kw1 kw2 : Str) : Str → Option Str
  | [] => none
  | c :: t =>
    match matchHeaderAt kw1 kw2 (c :: t) with
    | some g => some g
    | none => searchHeader kw1 kw2 t

/-- Is `pat` a leading segment of `s`? -/
def begins : Str → Str → Bool
  | [], _ => true
  | _ :: _, [] => false
  | p :: ps, c :: cs => p == c && begins ps cs

/-- Characters before the first occurrence of three backticks; `none` if absent. -/
def takeUntilTicks : Str → Option Str
  | [] => none
  | c :: t =>
    if begins ("```".data) (c :: t) then some []
    else (takeUntilTicks t).map (c :: ·)

/-- Trailing `\s*` of the fenced-code pattern: drop trailing whitespace. -/
def stripWsEnd (l : Str) : Str := (l.reverse.dropWhile isSpace).reverse

/-- Try the fenced-code pattern (three backticks, `cpp`, `\s*(.*?)\s*`, three
backticks; IGNORECASE, DOTALL) at this position. -/
def matchCodeAt (s : Str) : Option Str :=
  match litCI ("```cpp".data) s with
  | none => none
  | some r =>
    match takeUntilTicks (r.dropWhile isSpace) with
    | none => none
    | some g => some (stripWsEnd g)

/-- Search (`re.search`) for the fenced-code pattern: leftmost matching position. -/
def searchCode : Str → Option Str
  | [] => none
  | c :: t =>
    match matchCodeAt (c :: t) with
    | some g => some g
    | none => searchCode t

def extractName (text : Str) : Option Str :=
  (searchHeader ("Policy".data) ("Name".data) text).map stripWs

def extractDesc (text : Str) : Option Str :=
  (searchHeader ("Policy".data) ("Description".data) text).map stripWs

def extractCode (text : Str) : Option Str := (searchCode text).map stripWs

/-- Function `parse_policy_content` from `run_loop_docker.py`: the three `_extract` results
(each `m.group(1).strip()` or `None`). -/
def parse_policy_content (text : Str) : Option Str × Option Str × Option Str :=
  (extractName text, extractDesc text, extractCode text)

/-- The caller guard in `main`: `if not (name and desc and code): raise`.
`none` models the raised parse error; a component that is `None` or empty
(Python falsy) is rejected. -/
def acceptParsed : Option Str × Option Str × Option Str → Option (Str × Str × Str)
  | (some n, some d, some c) =>
    if n.isEmpty || d.isEmpty || c.isEmpty then none else some (n, d, c)
  | _ => none

/-! Section: metric extraction (`parse_hit_rate`, `parse_llc_stats`). -/

/-- Whitespace `\s+` then maximal munch (always followed by a non-whitespace literal or digit here). -/
def ws1 : Str → Option Str
  | [] => none
  | c :: cs => if isSpace c then some (cs.dropWhile isSpace) else none

/-- Digits `(\d+)`, greedy: maximal run of digits, as a number, with the rest. -/
def digits1 (s : Str) : Option (ℕ × Str) :=
  let ds := s.takeWhile isDigitA
  if ds.isEmpty then none
  else some (ds.foldl (fun a c => 10 * a + (c.toNat - 48)) 0, s.dropWhile isDigitA)

/-- Try `LLC TOTAL\s+ACCESS:\s+(\d+)\s+HIT:\s+(\d+)` (case-sensitive) at this position. -/
def matchLLCAt (s : Str) : Option (ℕ × ℕ) :=
  match lit ("LLC TOTAL".data) s with
  | none => none
  | some r1 =>
    match ws1 r1 with
    | none => none
    | some r2 =>
      match lit ("ACCESS:".data) r2 with
      | none => none
      | some r3 =>
        match ws1 r3 with
        | none => none
        | some r4 =>
          match digits1 r4 with
          | none => none
          | some (a, r5) =>
            match ws1 r5 with
            | none => none
            | some r6 =>
              match lit ("HIT:".data) r6 with
              | none => none
              | some r7 =>
                match ws1 r7 with
                | none => none
                | some r8 =>
                  match digits1 r8 with
                  | none => none
                  | some (h, _) => some (a, h)

/-- Search (`re.search`) for the LLC pattern: leftmost matching position. -/
def findLLC : Str → Option (ℕ × ℕ)
  | [] => none
  | c :: t =>
    match matchLLCAt (c :: t) with
    | some v => some v
    | none => findLLC t

/-- Function `parse_hit_rate` from `run_loop_docker.py`: hit rate from the report, `0.0` on a
matched zero access count, `none` for the raised `RuntimeError` when the pattern
is absent. -/
def parse_hit_rate (output : Str) : Option ℚ :=
  match findLLC output with
  | some (a, h) => if 0 < a then some ((h : ℚ) / (a : ℚ)) else some 0
  | none => none

/-- Function `parse_llc_stats` from `DB_Connection.py`: `(access, hits)` or the raised error. -/
def parse_llc_stats (text : Str) : Option (ℕ × ℕ) := findLLC text

/-- The pattern exactly as the claim states it, `ACCESS:\s*(\d+)\s+HIT:\s*(\d+)` —
no `LLC TOTAL` prefix and optional whitespace after the colons. Written from the
spec's words, for comparison against the code's pattern. -/
def matchSpecAccessAt (s : Str) : Option (ℕ × ℕ) :=
  match lit ("ACCESS:".data) s with
  | none => none
  | some r1 =>
    match digits1 (r1.dropWhile isSpace) with
    | none => none
    | some (a, r2) =>
      match ws1 r2 with
      | none => none
      | some r3 =>
        match lit ("HIT:".data) r3 with
        | none => none
        | some r4 =>
          match digits1 (r4.dropWhile isSpace) with
          | none => none
          | some (h, _) => some (a, h)

/-- Leftmost search for the spec-stated pattern. -/
def specAccessHitFind : Str → Option (ℕ × ℕ)
  | [] => none
  | c :: t =>
    match matchSpecAccessAt (c :: t) with
    | some v => some v
    | none => specAccessHitFind t

/-- C5 counterexample: this report contains a substring matching the claimed
pattern `ACCESS:\s*(\d+)\s+HIT:\s*(\d+)` with accesses `100 > 0`, so per the
claim extraction should yield hit rate `0.4`; the code's extraction, which
additionally requires the `LLC TOTAL` prefix, raises instead. -/
theorem metric_claimed_pattern_cex :
    specAccessHitFind (("x ACCESS: 100 HIT: 40 y").data) = some (100, 40)
    ∧ parse_hit_rate (("x ACCESS: 100 HIT: 40 y").data) = none := by
  constructor
  · decide
  · decide

/-- C5 amended: the pattern is `LLC TOTAL\s+ACCESS:\s+(\d+)\s+HIT:\s+(\d+)`
(mandatory `LLC TOTAL` prefix, at least one whitespace after each colon). With
that pattern: the extraction returns hits/accesses when the matched accesses are
positive and `0.0` when they are zero, and it raises exactly when the pattern is
absent; `"... LLC TOTAL ACCESS: 100 HIT: 40 ..."` yields `(100, 40)` and rate `2/5`. -/
theorem metric_extraction_amended :
    (∀ out a h, findLLC out = some (a, h) →
      parse_hit_rate out = some (if 0 < a then (h : ℚ) / (a : ℚ) else 0))
    ∧ (∀ out, parse_hit_rate out = none ↔ findLLC out = none)
    ∧ parse_llc_stats (("q LLC TOTAL ACCESS: 100 HIT: 40 r").data) = some (100, 40)
    ∧ parse_hit_rate (("q LLC TOTAL ACCESS: 100 HIT: 40 r").data) = some (2/5)
    ∧ parse_hit_rate (("LLC TOTAL ACCESS: 0 HIT: 7").data) = some 0 := by
  refine ⟨?_, ?_, by decide, ?_, ?_⟩
  · intro out a h hf
    unfold parse_hit_rate
    rw [hf]
    show (if 0 < a then some ((h : ℚ) / (a : ℚ)) else some 0)
      = some (if 0 < a then (h : ℚ) / (a : ℚ) else 0)
    by_cases hp : 0 < a
    · rw [if_pos hp, if_pos hp]
    · rw [if_neg hp, if_neg hp]
  · intro out
    cases hf : findLLC out with
    | none => simp [parse_hit_rate, hf]
    | some v =>
      obtain ⟨a, h⟩ := v
      simp [parse_hit_rate, hf]
      split <;> simp
  · have hf : findLLC (("q LLC TOTAL ACCESS: 100 HIT: 40 r").data) = some (100, 40) := by
      decide
    simp [parse_hit_rate, hf]
    norm_num
  · have hf : findLLC (("LLC TOTAL ACCESS: 0 HIT: 7").data) = some (0, 7) := by decide
    simp [parse_hit_rate, hf]

/-- C5 amended witness: the general hit-rate equation applied at a concrete report. -/
theorem metric_extraction_amended_witness :
    parse_hit_rate (("LLC TOTAL ACCESS: 2 HIT: 1").data)
      = some (if 0 < 2 then ((1 : ℕ) : ℚ) / ((2 : ℕ) : ℚ) else 0) :=
  metric_extraction_amended.1 (("LLC TOTAL ACCESS: 2 HIT: 1").data) 2 1 (by decide)

/-- C6: the reply parser's caller accepts exactly when all three components are
extracted and non-empty: a reply from which any of the three markers' contents is
missing is a parse error, and an accepted reply always carries a non-empty name,
description and source — never a partially-filled tuple. -/
theorem reply_parse_accept (text : Str) :
    (∀ n d c, acceptParsed (parse_policy_content text) = some (n, d, c) →
      extractName text = some n ∧ extractDesc text = some d ∧ extractCode text = some c
        ∧ n ≠ [] ∧ d ≠ [] ∧ c ≠ [])
    ∧ (extractName text = none → acceptParsed (parse_policy_content text) = none)
    ∧ (extractDesc text = none → acceptParsed (parse_policy_content text) = none)
    ∧ (extractCode text = none → acceptParsed (parse_policy_content text) = none) := by
  refine ⟨?_, ?_, ?_, ?_⟩
  · intro n d c h
    rw [show parse_policy_content text
          = (extractName text, extractDesc text, extractCode text) from rfl] at h
    cases hn : extractName text with
    | none => rw [hn] at h; exact Option.noConfusion h
    | some n0 =>
      cases hd : extractDesc text with
      | none => rw [hn, hd] at h; exact Option.noConfusion h
      | some d0 =>
        cases hc : extractCode text with
        | none => rw [hn, hd, hc] at h; exact Option.noConfusion h
        | some c0 =>
          rw [hn, hd, hc] at h
          rw [show acceptParsed (some n0, some d0, some c0)
                = (if (n0.isEmpty || d0.isEmpty || c0.isEmpty) = true then none
                   else some (n0, d0, c0)) from rfl] at h
          by_cases he : (n0.isEmpty || d0.isEmpty || c0.isEmpty) = true
          · rw [if_pos he] at h
            exact Option.noConfusion h
          · rw [if_neg he] at h
            simp only [Option.some.injEq, Prod.mk.injEq] at h
            obtain ⟨h1, h2, h3⟩ := h
            refine ⟨by rw [h1], by rw [h2], by rw [h3], ?_, ?_, ?_⟩
            · intro e
              apply he
              rw [h1, e]
              simp only [List.isEmpty_nil, Bool.true_or]
            · intro e
              apply he
              rw [h2, e]
              simp only [List.isEmpty_nil, Bool.true_or, Bool.or_true]
            · intro e
              apply he
              rw [h3, e]
              simp only [List.isEmpty_nil, Bool.true_or, Bool.or_true]
  · intro hn
    unfold acceptParsed parse_policy_content
    rw [hn]
  · intro hd
    unfold acceptParsed parse_policy_content
    rw [hd]
    cases extractName text <;> rfl
  · intro hc
    unfold acceptParsed parse_policy_content
    rw [hc]
    cases extractName text with
    | none => rfl
    | some n0 => cases extractDesc text <;> rfl

/-- A concrete well-formed oracle reply with all three markers. -/
def wfReply : Str :=
  ("## Policy Name\nAdaptiveLRU\n\n## Policy Description\nUses recency.\n\n## C++ Implementation\n```cpp\nint x;\n```").data

/-- C6 witness: a well-formed reply carrying all three markers is accepted, and the
accepted components are exactly the marked contents, all non-empty. -/
theorem reply_parse_accept_witness :
    extractName wfReply = some ("AdaptiveLRU".data)
    ∧ extractDesc wfReply = some ("Uses recency.".data)
    ∧ extractCode wfReply = some ("int x;".data)
    ∧ ("AdaptiveLRU".data : Str) ≠ [] ∧ ("Uses recency.".data : Str) ≠ []
    ∧ ("int x;".data : Str) ≠ [] :=
  (reply_parse_accept wfReply).1 _ _ _ (by decide)

/-! Section: the experiment ledger and the seeding script (`DB_Connection.py`).

A `Trial` is one row of the `experiments` table. The module-level code of
`DB_Connection.py` clears the table and inserts one row per (workload, policy)
pair plus one aggregate row per policy under the sentinel workload `"all"`,
with `score` always the policy's precomputed average hit rate. -/

structure Trial where
  workload : Str
  policy : Str
  policy_description : Str
  workload_description : Str
  cpp_file_path : Str
  cache_hit_rate : ℚ
  score : ℚ

/-- The `workloads` dict of `DB_Connection.py`: name, description, trace
(insertion order preserved as list order). -/
def db_workloads : List (Str × Str × Str) :=
  [(("astar").data,
    (("The A* workload models a pathfinding algorithm commonly used in game AI and robotics. It is characterized by deeply nested control-flow, frequent branching, and high rates of speculative execution due to unpredictable decisions in the search space. Memory access patterns are moderately sparse with irregular access strides and limited reuse, making it a stress test for branch predictors and instruction-level parallelism. Cache-wise, it has a moderate trace size and shows limited temporal locality, challenging replacement policies to avoid pollution from control-dominated paths.").data),
    (("ChampSim_CRC2/traces/astar_313B.trace.gz").data)),
   (("lbm").data,
    (("LBM (Lattice-Boltzmann Method) simulates fluid dynamics by performing stencil-based updates across 3D grids. It exhibits dense, regular memory access patterns with high spatial locality but limited temporal reuse. Cache pressure is significant due to large working sets and repetitive accesses across neighboring cells, making it ideal for evaluating how well a policy handles spatial locality and prefetching alignment. LBM\x27s deterministic access stride also exposes weaknesses in replacement strategies that fail to retain blocks until their reuse window arrives.").data),
    (("ChampSim_CRC2/traces/lbm_564B.trace.gz").data)),
   (("mcf").data,
    (("The MCF workload solves the Minimum Cost Flow problem using network simplex algorithms. It is known for pointer-chasing behavior, deep data dependencies, and highly irregular, sparse memory accesses. This leads to poor cache locality and low IPC due to frequent pipeline stalls from memory latency. MCF is a classical example of memory-bound workloads and is particularly harsh on cache replacement policies that rely on recency or frequency heuristics. Its access patterns are difficult to predict, making it valuable for testing adaptive and learned policies.").data),
    (("ChampSim_CRC2/traces/mcf_250B.trace.gz").data)),
   (("milc").data,
    (("MILC simulates Quantum Chromodynamics (QCD) calculations on 4D space-time lattices, often used in particle physics research. The workload includes extensive use of floating-point arithmetic within nested loops, coupled with both regular and irregular memory accesses. MILC combines phases of high spatial reuse with intermittent pointer dereferencing and indirect indexing, leading to inconsistent locality characteristics. This makes it a strong candidate for evaluating how well a replacement policy can respond to phase changes in workload behavior.").data),
    (("ChampSim_CRC2/traces/milc_409B.trace.gz").data)),
   (("omnetpp").data,
    (("Omnet++ models a discrete-event network simulator, simulating communication protocols with complex object-oriented structures. It features heavy dynamic memory allocation, small object usage, and highly unpredictable control flow. Its access pattern is dominated by pointer dereferencing and virtual function calls, resulting in low spatial and temporal locality. Frequent branching and irregular memory usage make it a demanding workload for branch predictors and cache systems, especially those relying on stable reuse signals.").data),
    (("ChampSim_CRC2/traces/omnetpp_17B.trace.gz").data))]

/-- The `policies` dict of `DB_Connection.py`: name, description, file path
(insertion order preserved as list order). -/
def db_policies : List (Str × Str × Str) :=
  [(("LRU").data,
    (("Least Recently Used (LRU) replacement policy evicts the cache line that has not been accessed for the longest time. It assumes temporal locality—recently used data is more likely to be used again. This simple stack-based heuristic is hardware-friendly but can perform poorly under non-recurring access patterns or streaming workloads.").data),
    (("ChampSim_CRC2/champ_repl_pol/lru.cc").data)),
   (("Hawkeye").data,
    (("Hawkeye is a predictive replacement policy that leverages Belady\x27s MIN algorithm as an oracle during training phases. It classifies memory accesses as cache-friendly or cache-averse using past reuse behavior. Hawkeye tracks the hit/miss patterns of PCs and predicts future reuse, evicting lines unlikely to be reused. This learned policy often outperforms heuristics in workloads with high variance in reuse patterns.").data),
    (("ChampSim_CRC2/champ_repl_pol/hawkeye_final.cc").data)),
   (("Less is More").data,
    (("The Less is More (LIME) policy maintains a smaller but more predictable working set in cache by selectively caching only highly reusable data. It introduces filters or confidence thresholds to reduce cache pollution, especially effective in workloads with sparse reuse or high noise. By avoiding over-commitment, it reduces thrashing and improves effective cache utilization in irregular access patterns.").data),
    (("ChampSim_CRC2/champ_repl_pol/lime.cc").data)),
   (("Multiperspective").data,
    (("Multiperspective replacement integrates multiple heuristics—temporal (recency), spatial (block adjacency), and frequency (access counts)—to make informed eviction decisions. It balances short-term reuse with longer-term utility predictions, offering adaptability across diverse workloads. This hybrid strategy is especially useful in mixed compute and memory-intensive applications.").data),
    (("ChampSim_CRC2/champ_repl_pol/dancrc2.cc").data)),
   (("Reordering-based Cache Replacement").data,
    (("This policy reorders memory accesses to increase temporal locality before they reach the cache. By dynamically reshaping the access stream (e.g., via scheduling queues or address clustering), it reduces conflict misses and enhances reuse. The effectiveness is tied to how well reordering aligns with the underlying data reuse patterns of the workload.").data),
    (("ChampSim_CRC2/champ_repl_pol/red.cc").data)),
   (("Ship++").data,
    (("SHiP++ (Signature-based Hit Predictor) is an enhancement over the SHiP policy, which uses PC-based signatures and outcome history to track line usefulness. SHiP++ incorporates refined predictors, decay mechanisms, and hybrid reuse classification to better handle pathological cases (e.g., thrashing). It provides strong performance across workloads with dynamic and complex reuse patterns.").data),
    (("ChampSim_CRC2/champ_repl_pol/ship++.cc").data))]

/-- The `perf_data` dict: per workload name, the hit rates in policy order. -/
def perf_data : List (Str × List ℚ) :=
  [(("astar").data, [0.45454223305787467, 0.3573547794394494, 0.38901773944350737,
      0.03709567109384967, 0.4110201774653078, 0.33821173935846005]),
   (("lbm").data, [0.43985783443540666, 0.27289983516244354, 0.32972240516582263,
      0.011593643367720617, 0.19358477211349756, 0.2615846099982021]),
   (("mcf").data, [0.4074020886631043, 0.5087725688923012, 0.5230175409101099,
      0.515161598323247, 0.5200312710592792, 0.524743749964974]),
   (("milc").data, [0.3219114100958022, 0.06456693483565899, 0.23460321368313578,
      0.00026430697263517673, 0.14627399581453615, 0.054986712238499026]),
   (("omnetpp").data, [0.4606533811310401, 0.6753672808393627, 0.6900525496418154,
      0.008547620325799737, 0.4621028207407054, 0.698462878241108])]

/-- Lookup `perf_data[workload_name]`. -/
def lookupPerf (w : Str) : List ℚ :=
  match perf_data.find? (fun p => p.1 == w) with
  | some p => p.2
  | none => []

/-- Table `policy_hit_rates` for the policy at position `i` of the `policies` dict:
its hit rate in each workload, in workload order. (The Python dict is keyed by
policy name; names are distinct and aligned with `enumerate(policies)`, so the
position is a faithful key.) -/
def policy_hit_rates (i : ℕ) : List ℚ :=
  db_workloads.map (fun w => (lookupPerf w.1).getD i 0)

/-- Score `policy_scores`: `sum(hit_rates) / len(hit_rates) if hit_rates else 0.0`. -/
def policy_scores (i : ℕ) : ℚ :=
  if policy_hit_rates i = [] then 0
  else (policy_hit_rates i).sum / ((policy_hit_rates i).length : ℚ)

/-- The 30 per-workload seed rows (workload-major, policy-minor order), each with
`cache_hit_rate` the measured value and `score` the policy's average. -/
def seedWorkloadRows : List Trial :=
  db_workloads.flatMap (fun w =>
    db_policies.enum.map (fun ip =>
      { workload := w.1
        policy := ip.2.1
        policy_description := ip.2.2.1
        workload_description := w.2.1
        cpp_file_path := ip.2.2.2
        cache_hit_rate := (lookupPerf w.1).getD ip.1 0
        score := policy_scores ip.1 }))

/-- The 6 aggregate seed rows under the sentinel workload `"all"`, with
`cache_hit_rate = score =` the policy's average and an empty workload description. -/
def seedAllRows : List Trial :=
  db_policies.enum.map (fun ip =>
    { workload := ("all").data
      policy := ip.2.1
      policy_description := ip.2.2.1
      workload_description := []
      cpp_file_path := ip.2.2.2
      cache_hit_rate := policy_scores ip.1
      score := policy_scores ip.1 })

/-- The ledger contents after the module-level seeding of `DB_Connection.py`. -/
def seedDB : List Trial := seedWorkloadRows ++ seedAllRows

/-- The mean of the per-workload metrics recorded for candidate `p` in `db`
(rows other than the `"all"` sentinel) — the "candidate's mean metric across
the full workload set" of the claims. -/
def candMean (db : List Trial) (p : Str) : ℚ :=
  let ms := (db.filter (fun r => r.policy == p && !(r.workload == ("all").data))).map
    Trial.cache_hit_rate
  ms.sum / (ms.length : ℚ)

/-- Modelled from the spec: `RetrievalRanker.top_n("all", n)` sorted by score
descending (section 4.2) — the `RAG` module itself is not among the sources —
so the seed `best_score = top_policies[0]["score"]` of the controller's INIT
step is the maximum aggregate score in the ledger. -/
def get_top_score (db : List Trial) : ℚ :=
  ((db.filter (fun r => r.workload == ("all").data)).map Trial.score).foldr max 0

/-! Section: the search controller (`main` in `run_loop_docker.py`).

One pass of the `while True` body, with the external collaborators (oracle,
compiler, simulator) supplied as an environment: the oracle reply text, the
build outcome, and the simulator report for each workload run of the pass.
The controller state carries the ledger, the written source artifacts, the
previous-candidate context, the running best and current scores and the
iteration index. -/

/-- The `workloads` list of `run_loop_docker.py` (name, trace path). -/
def rl_workloads : List (Str × Str) :=
  [(("astar").data, ("ChampSim_CRC2/traces/astar_313B.trace.gz").data),
   (("lbm").data, ("ChampSim_CRC2/traces/lbm_564B.trace.gz").data),
   (("mcf").data, ("ChampSim_CRC2/traces/mcf_250B.trace.gz").data),
   (("milc").data, ("ChampSim_CRC2/traces/milc_409B.trace.gz").data),
   (("omnetpp").data, ("ChampSim_CRC2/traces/omnetpp_17B.trace.gz").data)]

/-- External collaborators for one loop pass: the oracle reply, the build
outcome, and the simulator report of the k-th workload run. -/
structure IterEnv where
  text : Str
  compileOk : Bool
  runOut : ℕ → Str

/-- The controller's mutable state across loop passes. -/
structure LoopState where
  db : List Trial
  files : Str → Option Str
  prev_name : Option Str
  prev_desc : Option Str
  prev_code : Option Str
  best_hit : ℚ
  current_hit : ℚ
  i : ℕ

/-- Outcome of one loop pass: continue normally, retry after a build failure
(`continue` in the source), exit the loop (`break`), or propagate an
exception (parse failure, metric not found). -/
inductive StepResult where
  | next (s : LoopState)
  | retry (s : LoopState)
  | done (s : LoopState)
  | fatal (s : LoopState)

def resState : StepResult → LoopState
  | .next s => s
  | .retry s => s
  | .done s => s
  | .fatal s => s

def isNext : StepResult → Bool
  | .next _ => true
  | _ => false

def isRetry : StepResult → Bool
  | .retry _ => true
  | _ => false

def isDone : StepResult → Bool
  | .done _ => true
  | _ => false

def isFatal : StepResult → Bool
  | .fatal _ => true
  | _ => false

/-- The feedback comparison at the top of a pass (`i ≥ 1` only): `best_hit`
absorbs `current_hit` exactly when `current_hit > best_hit`. -/
def feedbackBest (s : LoopState) : ℚ :=
  if s.i = 0 then s.best_hit
  else if s.best_hit < s.current_hit then s.current_hit else s.best_hit

/-- Function `record` from `run_loop_docker.py`: one INSERT with
`cache_hit_rate = score = rate`. -/
def recordRow (workload name desc cc : Str) (rate : ℚ) (wdesc : Str) : Trial :=
  { workload := workload
    policy := name
    policy_description := desc
    workload_description := wdesc
    cpp_file_path := cc
    cache_hit_rate := rate
    score := rate }

/-- Format f-string i:03 of the artifact name: decimal digits, zero-padded to width 3. -/
def decDigit (d : ℕ) : Char := Char.ofNat (48 + d)

def toDecAux : ℕ → ℕ → Str → Str
  | 0, _, acc => acc
  | fuel + 1, n, acc =>
    if n < 10 then decDigit n :: acc
    else toDecAux fuel (n / 10) (decDigit (n % 10) :: acc)

def toDec (n : ℕ) : Str := toDecAux (n + 1) n []

def pad3 (n : ℕ) : Str := List.replicate (3 - (toDec n).length) '0' ++ toDec n

/-- The artifact path: zero-padded index, underscore, sanitized name, the
`.cc` extension (the fixed example directory is elided). -/
def ccPath (i : ℕ) (name : Str) : Str :=
  pad3 i ++ ('_' :: (sanitize name ++ (".cc").data))

/-- The per-workload evaluation loop of a pass: run the simulator, parse the
hit rate, accumulate `current_hit_tmp` and record one row per workload. A
metric-extraction failure raises, keeping the rows recorded so far: the
result is the recorded rows together with `some` accumulated total, or
`none` after a raise. -/
def runRecord (name desc cc : Str) (runOut : ℕ → Str) :
    List (Str × Str) → ℕ → ℚ → List Trial × Option ℚ
  | [], _, acc => ([], some acc)
  | w :: ws, k, acc =>
    match parse_hit_rate (runOut k) with
    | none => ([], none)
    | some r =>
      let rest := runRecord name desc cc runOut ws (k + 1) (acc + r)
      (recordRow w.1 name desc cc r [] :: rest.1, rest.2)

/-- The run/record/decide tail of a pass after a successful build of the
candidate `(n, d, c)`: per-workload runs and records (a metric failure raises,
with the partial rows committed), the aggregate record under `"all"`, `i += 1`,
the `break` test `current_hit / best_hit > 1.3`, and otherwise the
previous-candidate update. -/
def afterCompile (env : IterEnv) (s : LoopState) (n d c : Str) : StepResult :=
  match (runRecord n d (ccPath s.i n) env.runOut rl_workloads 0 0).2 with
  | none => .fatal
      { s with
        best_hit := feedbackBest s
        files := fun p => if p = ccPath s.i n then some c else s.files p
        db := s.db ++ (runRecord n d (ccPath s.i n) env.runOut rl_workloads 0 0).1 }
  | some total =>
    if 13 / 10 < (total / (rl_workloads.length : ℚ)) / feedbackBest s then
      .done
        { db := s.db ++ (runRecord n d (ccPath s.i n) env.runOut rl_workloads 0 0).1
            ++ [recordRow (("all").data) n d (ccPath s.i n)
                  (total / (rl_workloads.length : ℚ)) []]
          files := fun p => if p = ccPath s.i n then some c else s.files p
          prev_name := s.prev_name
          prev_desc := s.prev_desc
          prev_code := s.prev_code
          best_hit := feedbackBest s
          current_hit := total / (rl_workloads.length : ℚ)
          i := s.i + 1 }
    else
      .next
        { db := s.db ++ (runRecord n d (ccPath s.i n) env.runOut rl_workloads 0 0).1
            ++ [recordRow (("all").data) n d (ccPath s.i n)
                  (total / (rl_workloads.length : ℚ)) []]
          files := fun p => if p = ccPath s.i n then some c else s.files p
          prev_name := some n
          prev_desc := some d
          prev_code := some c
          best_hit := feedbackBest s
          current_hit := total / (rl_workloads.length : ℚ)
          i := s.i + 1 }

/-- After a successful reply parse: write the source artifact, then compile;
a build failure is the `continue` retry, leaving everything but the written
file and the already-updated `best_hit` untouched. -/
def afterParse (env : IterEnv) (s : LoopState) (n d c : Str) : StepResult :=
  if env.compileOk then afterCompile env s n d c
  else
    .retry
      { s with
        best_hit := feedbackBest s
        files := fun p => if p = ccPath s.i n then some c else s.files p }

/-- One pass of the `while True` loop of `main`: (top-of-loop) feedback
comparison and best update; oracle call and reply parse (raise on failure);
then the write/compile/run/record/decide tail. -/
def stepIter (env : IterEnv) (s : LoopState) : StepResult :=
  match acceptParsed (parse_policy_content env.text) with
  | none => .fatal { s with best_hit := feedbackBest s }
  | some nd => afterParse env s nd.1 nd.2.1 nd.2.2

/-- The iterated loop: stepping is sticky at `done` (the `break`) and at
`fatal` (an uncaught exception); the environment stream is indexed by pass
number. -/
def runSeq (envs : ℕ → IterEnv) (s0 : LoopState) : ℕ → StepResult
  | 0 => .next s0
  | n + 1 =>
    match runSeq envs s0 n with
    | .next t => stepIter (envs n) t
    | .retry t => stepIter (envs n) t
    | r => r

theorem stepIter_parse_none (env : IterEnv) (s : LoopState)
    (hp : acceptParsed (parse_policy_content env.text) = none) :
    stepIter env s = .fatal { s with best_hit := feedbackBest s } := by
  unfold stepIter
  rw [hp]

theorem stepIter_parse_some (env : IterEnv) (s : LoopState) (n d c : Str)
    (hp : acceptParsed (parse_policy_content env.text) = some (n, d, c)) :
    stepIter env s = afterParse env s n d c := by
  unfold stepIter
  rw [hp]

theorem afterParse_best (env : IterEnv) (s : LoopState) (n d c : Str) :
    (resState (afterParse env s n d c)).best_hit = feedbackBest s := by
  unfold afterParse afterCompile
  split
  · split
    · rfl
    · split <;> rfl
  · rfl

theorem stepIter_best (env : IterEnv) (s : LoopState) :
    (resState (stepIter env s)).best_hit = feedbackBest s := by
  cases hacc : acceptParsed (parse_policy_content env.text) with
  | none => rw [stepIter_parse_none env s hacc]; rfl
  | some nd =>
    rw [stepIter_parse_some env s nd.1 nd.2.1 nd.2.2 hacc]
    exact afterParse_best env s nd.1 nd.2.1 nd.2.2

theorem build_fail_state (env : IterEnv) (s : LoopState) (n d c : Str)
    (hp : acceptParsed (parse_policy_content env.text) = some (n, d, c))
    (hc : env.compileOk = false) :
    stepIter env s = .retry
      { s with
        best_hit := feedbackBest s
        files := fun p => if p = ccPath s.i n then some c else s.files p } := by
  rw [stepIter_parse_some env s n d c hp]
  unfold afterParse
  rw [hc]
  rfl

theorem afterCompile_run_none (env : IterEnv) (s : LoopState) (n d c : Str)
    (hr : (runRecord n d (ccPath s.i n) env.runOut rl_workloads 0 0).2 = none) :
    afterCompile env s n d c = .fatal
      { s with
        best_hit := feedbackBest s
        files := fun p => if p = ccPath s.i n then some c else s.files p
        db := s.db ++ (runRecord n d (ccPath s.i n) env.runOut rl_workloads 0 0).1 } := by
  unfold afterCompile
  rw [hr]

theorem afterCompile_run_some (env : IterEnv) (s : LoopState) (n d c : Str) (total : ℚ)
    (hr : (runRecord n d (ccPath s.i n) env.runOut rl_workloads 0 0).2 = some total) :
    afterCompile env s n d c
      = (if 13 / 10 < (total / (rl_workloads.length : ℚ)) / feedbackBest s then
          StepResult.done
            { db := s.db ++ (runRecord n d (ccPath s.i n) env.runOut rl_workloads 0 0).1
                ++ [recordRow (("all").data) n d (ccPath s.i n)
                      (total / (rl_workloads.length : ℚ)) []]
              files := fun p => if p = ccPath s.i n then some c else s.files p
              prev_name := s.prev_name
              prev_desc := s.prev_desc
              prev_code := s.prev_code
              best_hit := feedbackBest s
              current_hit := total / (rl_workloads.length : ℚ)
              i := s.i + 1 }
        else
          StepResult.next
            { db := s.db ++ (runRecord n d (ccPath s.i n) env.runOut rl_workloads 0 0).1
                ++ [recordRow (("all").data) n d (ccPath s.i n)
                      (total / (rl_workloads.length : ℚ)) []]
              files := fun p => if p = ccPath s.i n then some c else s.files p
              prev_name := some n
              prev_desc := some d
              prev_code := some c
              best_hit := feedbackBest s
              current_hit := total / (rl_workloads.length : ℚ)
              i := s.i + 1 }) := by
  unfold afterCompile
  rw [hr]

theorem runRecord_cons_none (name desc cc : Str) (runOut : ℕ → Str) (w : Str × Str)
    (ws : List (Str × Str)) (k : ℕ) (acc : ℚ)
    (hp : parse_hit_rate (runOut k) = none) :
    runRecord name desc cc runOut (w :: ws) k acc = ([], none) := by
  conv_lhs => rw [runRecord]
  rw [hp]

theorem runRecord_cons_some (name desc cc : Str) (runOut : ℕ → Str) (w : Str × Str)
    (ws : List (Str × Str)) (k : ℕ) (acc r : ℚ)
    (hp : parse_hit_rate (runOut k) = some r) :
    runRecord name desc cc runOut (w :: ws) k acc
      = (recordRow w.1 name desc cc r []
           :: (runRecord name desc cc runOut ws (k + 1) (acc + r)).1,
         (runRecord name desc cc runOut ws (k + 1) (acc + r)).2) := by
  conv_lhs => rw [runRecord]
  rw [hp]

theorem runRecord_spec (name desc cc : Str) (runOut : ℕ → Str) :
    ∀ (ws : List (Str × Str)) (k : ℕ) (acc : ℚ) (rows : List Trial) (total : ℚ),
      runRecord name desc cc runOut ws k acc = (rows, some total) →
      total = acc + (rows.map Trial.cache_hit_rate).sum
      ∧ rows.length = ws.length
      ∧ (∀ r ∈ rows, r.score = r.cache_hit_rate) := by
  intro ws
  induction ws with
  | nil =>
    intro k acc rows total h
    unfold runRecord at h
    rw [Prod.mk.injEq] at h
    obtain ⟨h1, h2⟩ := h
    simp only [Option.some.injEq] at h2
    subst h1
    subst h2
    refine ⟨by simp, rfl, by simp⟩
  | cons w ws ih =>
    intro k acc rows total h
    cases hp : parse_hit_rate (runOut k) with
    | none =>
      rw [runRecord_cons_none name desc cc runOut w ws k acc hp] at h
      rw [Prod.mk.injEq] at h
      exact absurd h.2 (by simp)
    | some r =>
      rw [runRecord_cons_some name desc cc runOut w ws k acc r hp] at h
      rcases hr2 : runRecord name desc cc runOut ws (k + 1) (acc + r) with ⟨rows2, res2⟩
      rw [hr2] at h
      rw [Prod.mk.injEq] at h
      obtain ⟨h1, h2⟩ := h
      subst h1
      subst h2
      obtain ⟨ht, hl, hs⟩ := ih (k + 1) (acc + r) rows2 total hr2
      refine ⟨?_, ?_, ?_⟩
      · rw [ht]
        simp [recordRow]
        ring
      · simp [hl]
      · intro x hx
        rcases List.mem_cons.mp hx with he | hm
        · subst he; rfl
        · exact hs x hm

/-- C2: in the DECIDE comparison of every pass, `best_hit` is set to
`current_hit` exactly under the guard `current_hit > best_hit` (any
improvement, not only those crossing the threshold); the loop signals
termination (`break`) exactly when the just-computed aggregate score divided
by the best score in force at that comparison exceeds `1.3`; there is no
iteration cap and no other loop exit. (`0 < feedbackBest s` scopes the
statement to where rational division models Python division: with a zero
best score Python would raise `ZeroDivisionError` instead.) -/
theorem decide_update_and_termination (env : IterEnv) (s : LoopState)
    (_hb : 0 < feedbackBest s) :
    ((resState (stepIter env s)).best_hit
      = (if s.i = 0 then s.best_hit
         else if s.best_hit < s.current_hit then s.current_hit else s.best_hit))
    ∧ (∀ t, stepIter env s = .done t → 13 / 10 < t.current_hit / feedbackBest s)
    ∧ (∀ n d c total,
        acceptParsed (parse_policy_content env.text) = some (n, d, c) →
        env.compileOk = true →
        (runRecord n d (ccPath s.i n) env.runOut rl_workloads 0 0).2 = some total →
        13 / 10 < (total / (rl_workloads.length : ℚ)) / feedbackBest s →
        isDone (stepIter env s) = true) := by
  refine ⟨?_, ?_, ?_⟩
  · rw [stepIter_best env s]
    rfl
  · intro t ht
    cases hacc : acceptParsed (parse_policy_content env.text) with
    | none =>
      rw [stepIter_parse_none env s hacc] at ht
      exact StepResult.noConfusion ht
    | some nd =>
      rw [stepIter_parse_some env s nd.1 nd.2.1 nd.2.2 hacc] at ht
      unfold afterParse at ht
      by_cases hc : env.compileOk = true
      · rw [if_pos hc] at ht
        cases hr : (runRecord nd.1 nd.2.1 (ccPath s.i nd.1) env.runOut rl_workloads 0 0).2 with
        | none =>
          rw [afterCompile_run_none env s nd.1 nd.2.1 nd.2.2 hr] at ht
          exact StepResult.noConfusion ht
        | some total =>
          rw [afterCompile_run_some env s nd.1 nd.2.1 nd.2.2 total hr] at ht
          by_cases hrat : 13 / 10 < (total / (rl_workloads.length : ℚ)) / feedbackBest s
          · rw [if_pos hrat] at ht
            cases ht
            exact hrat
          · rw [if_neg hrat] at ht
            exact StepResult.noConfusion ht
      · rw [if_neg hc] at ht
        exact StepResult.noConfusion ht
  · intro n d c total hacc hc hr hrat
    rw [stepIter_parse_some env s n d c hacc]
    unfold afterParse
    rw [if_pos hc, afterCompile_run_some env s n d c total hr, if_pos hrat]
    rfl

/-- Simulator report used by the example runs: hit rate 1/2. -/
def exOut0 : Str := ("LLC TOTAL ACCESS: 10 HIT: 5").data

/-- Simulator report used by the example runs: hit rate 1/10. -/
def exOut1 : Str := ("LLC TOTAL ACCESS: 10 HIT: 1").data

/-- Concrete environment: well-formed reply, build succeeds, the first workload
reports hit rate 1/2 and the remaining ones 1/10. -/
def exEnv : IterEnv :=
  { text := wfReply
    compileOk := true
    runOut := fun k => if k = 0 then exOut0 else exOut1 }

/-- Concrete initial state (first pass, seed best 1/10, empty ledger). -/
def exState : LoopState :=
  { db := []
    files := fun _ => none
    prev_name := none
    prev_desc := none
    prev_code := none
    best_hit := 1 / 10
    current_hit := 1 / 10
    i := 0 }

/-- C2 witness: the DECIDE characterization applied at the concrete environment
and state. -/
theorem decide_update_and_termination_witness :
    (resState (stepIter exEnv exState)).best_hit
      = (if exState.i = 0 then exState.best_hit
         else if exState.best_hit < exState.current_hit then exState.current_hit
         else exState.best_hit) :=
  (decide_update_and_termination exEnv exState (by norm_num [feedbackBest, exState])).1

/-- The concrete well-formed reply parses to the candidate
(AdaptiveLRU, Uses recency., int x;). -/
theorem wfReply_parse :
    acceptParsed (parse_policy_content wfReply)
      = some ((("AdaptiveLRU").data), (("Uses recency.").data), (("int x;").data)) := by
  decide

/-- Environment of a pass whose build fails (well-formed reply, compiler error). -/
def envBF : IterEnv :=
  { text := wfReply
    compileOk := false
    runOut := fun _ => [] }

/-- State at the top of a pass following an improving iteration: the previous
pass evaluated to 3/5, exceeding the best 1/2 in force when it was compared. -/
def sBF : LoopState :=
  { db := []
    files := fun _ => none
    prev_name := some (("p0").data)
    prev_desc := some (("d0").data)
    prev_code := some (("c0").data)
    best_hit := 1 / 2
    current_hit := 3 / 5
    i := 1 }

/-- C4 amended: if the build step fails, no Trial is recorded, no score is
computed, and the loop retries without advancing: the previous-candidate
state, the ledger, the current score and the iteration index are unchanged;
however the feedback comparison has already run at the top of the failed
pass, so the retry's `best_hit` stands at `feedbackBest s` — when the
preceding iteration improved, the retry's comparison values differ from the
ones in force before the failed attempt. -/
theorem build_fail_retry (env : IterEnv) (s : LoopState) (n d c : Str)
    (hp : acceptParsed (parse_policy_content env.text) = some (n, d, c))
    (hc : env.compileOk = false) :
    isRetry (stepIter env s) = true
    ∧ (resState (stepIter env s)).db = s.db
    ∧ (resState (stepIter env s)).prev_name = s.prev_name
    ∧ (resState (stepIter env s)).prev_desc = s.prev_desc
    ∧ (resState (stepIter env s)).prev_code = s.prev_code
    ∧ (resState (stepIter env s)).current_hit = s.current_hit
    ∧ (resState (stepIter env s)).i = s.i
    ∧ (resState (stepIter env s)).best_hit = feedbackBest s := by
  rw [build_fail_state env s n d c hp hc]
  exact ⟨rfl, rfl, rfl, rfl, rfl, rfl, rfl, rfl⟩

/-- C4 witness: the amended build-failure contract at a concrete environment
and state. -/
theorem build_fail_retry_witness :
    isRetry (stepIter envBF sBF) = true :=
  (build_fail_retry envBF sBF (("AdaptiveLRU").data) (("Uses recency.").data)
    (("int x;").data) wfReply_parse rfl).1

/-- C4 counterexample: after an improving iteration (best 1/2, current 3/5),
the build-failure retry reruns the feedback comparison with the best score
already updated to 3/5 — the retry's comparison values are not the ones in
force before the failed attempt, and its feedback takes the no-improvement
branch instead of reproducing the failed attempt's improvement message. -/
theorem build_fail_feedback_cex :
    isRetry (stepIter envBF sBF) = true
    ∧ (resState (stepIter envBF sBF)).best_hit ≠ sBF.best_hit := by
  rw [build_fail_state envBF sBF (("AdaptiveLRU").data) (("Uses recency.").data)
    (("int x;").data) wfReply_parse rfl]
  refine ⟨rfl, ?_⟩
  show feedbackBest sBF ≠ sBF.best_hit
  norm_num [feedbackBest, sBF]

theorem stepIter_writes (env : IterEnv) (s : LoopState) (n d c : Str)
    (hp : acceptParsed (parse_policy_content env.text) = some (n, d, c)) :
    (resState (stepIter env s)).files (ccPath s.i n) = some c := by
  rw [stepIter_parse_some env s n d c hp]
  unfold afterParse
  by_cases hc : env.compileOk = true
  · rw [if_pos hc]
    cases hr : (runRecord n d (ccPath s.i n) env.runOut rl_workloads 0 0).2 with
    | none =>
      rw [afterCompile_run_none env s n d c hr]
      show (if ccPath s.i n = ccPath s.i n then some c else s.files (ccPath s.i n)) = some c
      rw [if_pos rfl]
    | some total =>
      rw [afterCompile_run_some env s n d c total hr]
      by_cases hrat : 13 / 10 < (total / (rl_workloads.length : ℚ)) / feedbackBest s
      · rw [if_pos hrat]
        show (if ccPath s.i n = ccPath s.i n then some c else s.files (ccPath s.i n)) = some c
        rw [if_pos rfl]
      · rw [if_neg hrat]
        show (if ccPath s.i n = ccPath s.i n then some c else s.files (ccPath s.i n)) = some c
        rw [if_pos rfl]
  · rw [if_neg hc]
    show (if ccPath s.i n = ccPath s.i n then some c else s.files (ccPath s.i n)) = some c
    rw [if_pos rfl]

theorem stepIter_i_advance (e : IterEnv) (t : LoopState)
    (h : isNext (stepIter e t) = true ∨ isDone (stepIter e t) = true) :
    (resState (stepIter e t)).i = t.i + 1 := by
  cases hacc : acceptParsed (parse_policy_content e.text) with
  | none =>
    rw [stepIter_parse_none e t hacc] at h
    simp [isNext, isDone] at h
  | some nd =>
    rw [stepIter_parse_some e t nd.1 nd.2.1 nd.2.2 hacc] at h ⊢
    unfold afterParse at h ⊢
    by_cases hc : e.compileOk = true
    · rw [if_pos hc] at h ⊢
      cases hr : (runRecord nd.1 nd.2.1 (ccPath t.i nd.1) e.runOut rl_workloads 0 0).2 with
      | none =>
        rw [afterCompile_run_none e t nd.1 nd.2.1 nd.2.2 hr] at h
        simp [isNext, isDone] at h
      | some total =>
        rw [afterCompile_run_some e t nd.1 nd.2.1 nd.2.2 total hr]
        by_cases hrat : 13 / 10 < (total / (rl_workloads.length : ℚ)) / feedbackBest t
        · rw [if_pos hrat]
          rfl
        · rw [if_neg hrat]
          rfl
    · rw [if_neg hc] at h
      simp [isNext, isDone] at h

theorem stepIter_i_stay (e : IterEnv) (t : LoopState)
    (h : isRetry (stepIter e t) = true ∨ isFatal (stepIter e t) = true) :
    (resState (stepIter e t)).i = t.i := by
  cases hacc : acceptParsed (parse_policy_content e.text) with
  | none =>
    rw [stepIter_parse_none e t hacc]
    rfl
  | some nd =>
    rw [stepIter_parse_some e t nd.1 nd.2.1 nd.2.2 hacc] at h ⊢
    unfold afterParse at h ⊢
    by_cases hc : e.compileOk = true
    · rw [if_pos hc] at h ⊢
      cases hr : (runRecord nd.1 nd.2.1 (ccPath t.i nd.1) e.runOut rl_workloads 0 0).2 with
      | none =>
        rw [afterCompile_run_none e t nd.1 nd.2.1 nd.2.2 hr]
        rfl
      | some total =>
        rw [afterCompile_run_some e t nd.1 nd.2.1 nd.2.2 total hr] at h
        by_cases hrat : 13 / 10 < (total / (rl_workloads.length : ℚ)) / feedbackBest t
        · rw [if_pos hrat] at h
          simp [isRetry, isFatal] at h
        · rw [if_neg hrat] at h
          simp [isRetry, isFatal] at h
    · rw [if_neg hc]
      rfl

theorem ccPath_inj (i : ℕ) (n n2 : Str) :
    ccPath i n2 = ccPath i n ↔ sanitize n2 = sanitize n := by
  constructor
  · intro h
    unfold ccPath at h
    have h2 := List.append_cancel_left h
    injection h2 with _ h3
    exact List.append_cancel_right h3
  · intro h
    unfold ccPath
    rw [h]

/-- C10: on a build failure the candidate's source has already been written at
the zero-padded-index path and the iteration index is not advanced, so the
retry writes its source to a path with the same index — the same path
(overwriting the failed artifact) exactly when the two sanitized names
coincide; the index advances exactly at the end of a fully evaluated pass. -/
theorem artifact_overwrite (env env2 : IterEnv) (s : LoopState) (n d c n2 d2 c2 : Str)
    (hp : acceptParsed (parse_policy_content env.text) = some (n, d, c))
    (hc : env.compileOk = false)
    (hp2 : acceptParsed (parse_policy_content env2.text) = some (n2, d2, c2)) :
    (resState (stepIter env s)).files (ccPath s.i n) = some c
    ∧ (resState (stepIter env s)).i = s.i
    ∧ (resState (stepIter env2 (resState (stepIter env s)))).files (ccPath s.i n2) = some c2
    ∧ (ccPath s.i n2 = ccPath s.i n ↔ sanitize n2 = sanitize n)
    ∧ (∀ e t, isNext (stepIter e t) = true ∨ isDone (stepIter e t) = true →
        (resState (stepIter e t)).i = t.i + 1)
    ∧ (∀ e t, isRetry (stepIter e t) = true ∨ isFatal (stepIter e t) = true →
        (resState (stepIter e t)).i = t.i) := by
  have hstay : (resState (stepIter env s)).i = s.i := by
    rw [build_fail_state env s n d c hp hc]
    rfl
  refine ⟨stepIter_writes env s n d c hp, hstay, ?_, ccPath_inj s.i n n2,
    stepIter_i_advance, stepIter_i_stay⟩
  have hw := stepIter_writes env2 (resState (stepIter env s)) n2 d2 c2 hp2
  rw [hstay] at hw
  exact hw

/-- C10 witness: the artifact-path contract at a concrete build-failing pass
followed by a retry with the same oracle reply. -/
theorem artifact_overwrite_witness :
    (resState (stepIter envBF sBF)).files (ccPath sBF.i (("AdaptiveLRU").data))
      = some (("int x;").data) :=
  (artifact_overwrite envBF envBF sBF (("AdaptiveLRU").data) (("Uses recency.").data)
    (("int x;").data) (("AdaptiveLRU").data) (("Uses recency.").data) (("int x;").data)
    wfReply_parse rfl wfReply_parse).1

/-- C9 amended: the controller's best score is seeded once, is non-decreasing
along any run, and is reassigned only under the guard
`current_score > best_score` (and then to exactly the current score); but an
evaluated aggregate score is absorbed only at the next pass's feedback
comparison, so between an evaluation and that comparison — and after a
terminating pass — `best_hit` lags the maximum of the scores evaluated so
far rather than equalling it at every point. -/
theorem best_monotone_guard :
    (∀ envs s0 n, (resState (runSeq envs s0 n)).best_hit
        ≤ (resState (runSeq envs s0 (n + 1))).best_hit)
    ∧ (∀ env s, (resState (stepIter env s)).best_hit = feedbackBest s)
    ∧ (∀ s, feedbackBest s ≠ s.best_hit →
        s.i ≠ 0 ∧ s.best_hit < s.current_hit ∧ feedbackBest s = s.current_hit) := by
  have hmono : ∀ s : LoopState, s.best_hit ≤ feedbackBest s := by
    intro s
    unfold feedbackBest
    split
    · exact le_refl _
    · split
      · exact le_of_lt (by assumption)
      · exact le_refl _
  refine ⟨?_, stepIter_best, ?_⟩
  · intro envs s0 n
    cases hr : runSeq envs s0 n with
    | next t =>
      have h1 : runSeq envs s0 (n + 1) = stepIter (envs n) t := by
        unfold runSeq
        rw [hr]
      rw [h1, stepIter_best]
      exact hmono t
    | retry t =>
      have h1 : runSeq envs s0 (n + 1) = stepIter (envs n) t := by
        unfold runSeq
        rw [hr]
      rw [h1, stepIter_best]
      exact hmono t
    | done t =>
      have h1 : runSeq envs s0 (n + 1) = .done t := by
        unfold runSeq
        rw [hr]
      rw [h1]
    | fatal t =>
      have h1 : runSeq envs s0 (n + 1) = .fatal t := by
        unfold runSeq
        rw [hr]
      rw [h1]
  · intro s hne
    unfold feedbackBest at hne ⊢
    by_cases h0 : s.i = 0
    · rw [if_pos h0] at hne
      exact absurd rfl hne
    · rw [if_neg h0] at hne ⊢
      by_cases hlt : s.best_hit < s.current_hit
      · rw [if_pos hlt] at hne ⊢
        exact ⟨h0, hlt, rfl⟩
      · rw [if_neg hlt] at hne
        exact absurd rfl hne

/-- C9 witness: the guard characterization applied at a concrete state whose
feedback comparison fires. -/
theorem best_monotone_guard_witness :
    sBF.i ≠ 0 ∧ sBF.best_hit < sBF.current_hit ∧ feedbackBest sBF = sBF.current_hit :=
  best_monotone_guard.2.2 sBF (by norm_num [feedbackBest, sBF])

theorem parse_hit_rate_pos {out : Str} {a h : ℕ} (hf : findLLC out = some (a, h))
    (hp : 0 < a) : parse_hit_rate out = some ((h : ℚ) / (a : ℚ)) := by
  unfold parse_hit_rate
  rw [hf]
  show (if 0 < a then some ((h : ℚ) / (a : ℚ)) else some 0) = some ((h : ℚ) / (a : ℚ))
  rw [if_pos hp]

theorem exOut0_rate : parse_hit_rate exOut0 = some (1 / 2 : ℚ) := by
  rw [parse_hit_rate_pos (show findLLC exOut0 = some (10, 5) by decide) (by norm_num)]
  norm_num

theorem exOut1_rate : parse_hit_rate exOut1 = some (1 / 10 : ℚ) := by
  rw [parse_hit_rate_pos (show findLLC exOut1 = some (10, 1) by decide) (by norm_num)]
  norm_num

/-- The artifact path of the example candidate on the first pass. -/
def exCC : Str := ccPath 0 (("AdaptiveLRU").data)

/-- The five per-workload rows the example pass records (first workload 1/2,
the rest 1/10); each row carries its own rate in both metric and score. -/
def exRows : List Trial :=
  [recordRow (("astar").data) (("AdaptiveLRU").data) (("Uses recency.").data) exCC (1 / 2) [],
   recordRow (("lbm").data) (("AdaptiveLRU").data) (("Uses recency.").data) exCC (1 / 10) [],
   recordRow (("mcf").data) (("AdaptiveLRU").data) (("Uses recency.").data) exCC (1 / 10) [],
   recordRow (("milc").data) (("AdaptiveLRU").data) (("Uses recency.").data) exCC (1 / 10) [],
   recordRow (("omnetpp").data) (("AdaptiveLRU").data) (("Uses recency.").data) exCC (1 / 10) []]

theorem exRun_runRecord :
    runRecord (("AdaptiveLRU").data) (("Uses recency.").data) exCC exEnv.runOut
      rl_workloads 0 0 = (exRows, some (9 / 10)) := by
  have h0 : parse_hit_rate (exEnv.runOut 0) = some (1 / 2 : ℚ) := by
    rw [show exEnv.runOut 0 = exOut0 from rfl]
    exact exOut0_rate
  have h1 : parse_hit_rate (exEnv.runOut 1) = some (1 / 10 : ℚ) := by
    rw [show exEnv.runOut 1 = exOut1 from rfl]
    exact exOut1_rate
  have h2 : parse_hit_rate (exEnv.runOut 2) = some (1 / 10 : ℚ) := by
    rw [show exEnv.runOut 2 = exOut1 from rfl]
    exact exOut1_rate
  have h3 : parse_hit_rate (exEnv.runOut 3) = some (1 / 10 : ℚ) := by
    rw [show exEnv.runOut 3 = exOut1 from rfl]
    exact exOut1_rate
  have h4 : parse_hit_rate (exEnv.runOut 4) = some (1 / 10 : ℚ) := by
    rw [show exEnv.runOut 4 = exOut1 from rfl]
    exact exOut1_rate
  unfold rl_workloads
  rw [runRecord_cons_some _ _ _ _ _ _ _ _ _ h0]
  rw [runRecord_cons_some _ _ _ _ _ _ _ _ _ h1]
  rw [runRecord_cons_some _ _ _ _ _ _ _ _ _ h2]
  rw [runRecord_cons_some _ _ _ _ _ _ _ _ _ h3]
  rw [runRecord_cons_some _ _ _ _ _ _ _ _ _ h4]
  unfold runRecord
  norm_num [exRows, recordRow]

/-- The ledger after the example pass (which terminates: the ratio
(9/50)/(1/10) = 1.8 exceeds 1.3). -/
def cexDB : List Trial := (resState (stepIter exEnv exState)).db

theorem cexDB_eq :
    cexDB = exRows ++ [recordRow (("all").data) (("AdaptiveLRU").data)
      (("Uses recency.").data) exCC (9 / 50) []] := by
  have hr2 : (runRecord (("AdaptiveLRU").data) (("Uses recency.").data)
      (ccPath exState.i (("AdaptiveLRU").data)) exEnv.runOut rl_workloads 0 0).2
        = some (9 / 10) := by
    rw [show ccPath exState.i (("AdaptiveLRU").data) = exCC from rfl, exRun_runRecord]
  have hrat : 13 / 10 < (((9 : ℚ) / 10) / (rl_workloads.length : ℚ)) / feedbackBest exState := by
    rw [show feedbackBest exState = 1 / 10 from rfl]
    norm_num [rl_workloads]
  unfold cexDB
  rw [stepIter_parse_some exEnv exState _ _ _ wfReply_parse]
  unfold afterParse
  rw [if_pos (show exEnv.compileOk = true from rfl)]
  rw [afterCompile_run_some exEnv exState _ _ _ (9 / 10) hr2]
  rw [if_pos hrat]
  show exState.db ++ (runRecord (("AdaptiveLRU").data) (("Uses recency.").data)
      (ccPath exState.i (("AdaptiveLRU").data)) exEnv.runOut rl_workloads 0 0).1
    ++ [recordRow (("all").data) (("AdaptiveLRU").data) (("Uses recency.").data)
          (ccPath exState.i (("AdaptiveLRU").data))
          (((9 : ℚ) / 10) / (rl_workloads.length : ℚ)) []] = _
  rw [show ccPath exState.i (("AdaptiveLRU").data) = exCC from rfl, exRun_runRecord]
  show ([] : List Trial) ++ exRows ++ _ = _
  rw [List.nil_append]
  norm_num [recordRow, rl_workloads]

/-- The C1 claim as a predicate on a ledger: every recorded row carries as its
score its candidate's mean metric across the full workload set. -/
def denormClaim (db : List Trial) : Prop :=
  ∀ r ∈ db, r.score = candMean db r.policy

/-- C1 counterexample: in the ledger produced by the example pass the astar
row of the candidate carries score 1/2 — its own per-workload metric — while
the candidate's mean metric across the workload set is 9/50: the loop's
`record` writes `score = rate` for per-workload rows, not the denormalized
mean. -/
theorem denorm_claim_cex : ¬ denormClaim cexDB := by
  rw [cexDB_eq]
  intro h
  have hmem : recordRow (("astar").data) (("AdaptiveLRU").data) (("Uses recency.").data)
      exCC (1 / 2) [] ∈ exRows ++ [recordRow (("all").data) (("AdaptiveLRU").data)
        (("Uses recency.").data) exCC (9 / 50) []] := by
    apply List.mem_append_left
    exact List.mem_cons_self _ _
  have h0 := h _ hmem
  rw [show candMean (exRows ++ [recordRow (("all").data) (("AdaptiveLRU").data)
        (("Uses recency.").data) exCC (9 / 50) []])
      (recordRow (("astar").data) (("AdaptiveLRU").data) (("Uses recency.").data)
        exCC (1 / 2) []).policy
    = (([1 / 2, 1 / 10, 1 / 10, 1 / 10, 1 / 10] : List ℚ).sum
        / (([1 / 2, 1 / 10, 1 / 10, 1 / 10, (1 / 10 : ℚ)] : List ℚ).length : ℚ)) from rfl] at h0
  simp only [List.sum_cons, List.sum_nil, List.length_cons, List.length_nil] at h0
  norm_num [recordRow] at h0

/-- Shared shape of the ledger after a fully evaluated pass: the per-workload
rows followed by the aggregate row whose score is the mean of their metrics. -/
theorem stepIter_db_shape (env : IterEnv) (s : LoopState) (n d c : Str)
    (rows : List Trial) (total : ℚ)
    (hp : acceptParsed (parse_policy_content env.text) = some (n, d, c))
    (hc : env.compileOk = true)
    (hr : runRecord n d (ccPath s.i n) env.runOut rl_workloads 0 0 = (rows, some total)) :
    (resState (stepIter env s)).db
      = s.db ++ rows ++ [recordRow (("all").data) n d (ccPath s.i n)
          ((rows.map Trial.cache_hit_rate).sum / (rows.length : ℚ)) []] := by
  obtain ⟨ht, hl, _⟩ := runRecord_spec n d (ccPath s.i n) env.runOut rl_workloads 0 0
    rows total hr
  rw [zero_add] at ht
  have hr2 : (runRecord n d (ccPath s.i n) env.runOut rl_workloads 0 0).2 = some total := by
    rw [hr]
  have hr1 : (runRecord n d (ccPath s.i n) env.runOut rl_workloads 0 0).1 = rows := by
    rw [hr]
  rw [stepIter_parse_some env s n d c hp]
  unfold afterParse
  rw [if_pos hc, afterCompile_run_some env s n d c total hr2]
  by_cases hrat : 13 / 10 < (total / (rl_workloads.length : ℚ)) / feedbackBest s
  · rw [if_pos hrat]
    show s.db ++ (runRecord n d (ccPath s.i n) env.runOut rl_workloads 0 0).1
        ++ [recordRow (("all").data) n d (ccPath s.i n)
              (total / (rl_workloads.length : ℚ)) []] = _
    rw [hr1, ht, hl]
  · rw [if_neg hrat]
    show s.db ++ (runRecord n d (ccPath s.i n) env.runOut rl_workloads 0 0).1
        ++ [recordRow (("all").data) n d (ccPath s.i n)
              (total / (rl_workloads.length : ℚ)) []] = _
    rw [hr1, ht, hl]

/-- C1 amended: the denormalized-mean invariant holds for every seeded row
(per-workload rows and "all" rows alike carry the candidate's mean as score),
but rows recorded by the search loop carry the row's own metric as score in
per-workload rows; only the aggregate "all" row carries the candidate's mean
of that pass. -/
theorem denorm_amended (env : IterEnv) (s : LoopState) (n d c : Str) (rows : List Trial)
    (total : ℚ)
    (hp : acceptParsed (parse_policy_content env.text) = some (n, d, c))
    (hc : env.compileOk = true)
    (hr : runRecord n d (ccPath s.i n) env.runOut rl_workloads 0 0 = (rows, some total)) :
    (seedDB.map Trial.score = seedDB.map (fun r => candMean seedDB r.policy))
    ∧ (∀ r ∈ rows, r.score = r.cache_hit_rate)
    ∧ (resState (stepIter env s)).db
        = s.db ++ rows ++ [recordRow (("all").data) n d (ccPath s.i n)
            ((rows.map Trial.cache_hit_rate).sum / (rows.length : ℚ)) []] := by
  refine ⟨?_, ?_, stepIter_db_shape env s n d c rows total hp hc hr⟩
  · rfl
  · exact (runRecord_spec n d (ccPath s.i n) env.runOut rl_workloads 0 0 rows total hr).2.2

/-- C1 amended witness: the theorem applied at the concrete example pass; the
seeded ledger satisfies the denormalized-mean invariant. -/
theorem denorm_amended_witness :
    seedDB.map Trial.score = seedDB.map (fun r => candMean seedDB r.policy) :=
  (denorm_amended exEnv exState (("AdaptiveLRU").data) (("Uses recency.").data)
    (("int x;").data) exRows (9 / 10) wfReply_parse rfl exRun_runRecord).1

/-- C3: for every completed evaluation the aggregate Trial recorded under
"all" carries a score equal to the arithmetic mean of the per-workload
metrics recorded for that candidate in that pass, computed once after all
workloads have run (the rows number exactly the workloads); and every seeded
"all" row likewise carries the mean of its candidate's seeded per-workload
metrics. -/
theorem aggregate_mean (env : IterEnv) (s : LoopState) (n d c : Str) (rows : List Trial)
    (total : ℚ)
    (hp : acceptParsed (parse_policy_content env.text) = some (n, d, c))
    (hc : env.compileOk = true)
    (hr : runRecord n d (ccPath s.i n) env.runOut rl_workloads 0 0 = (rows, some total)) :
    (resState (stepIter env s)).db
      = s.db ++ rows ++ [recordRow (("all").data) n d (ccPath s.i n)
          ((rows.map Trial.cache_hit_rate).sum / (rows.length : ℚ)) []]
    ∧ rows.length = rl_workloads.length
    ∧ ((seedDB.filter (fun r => r.workload == ("all").data)).map Trial.score
        = (seedDB.filter (fun r => r.workload == ("all").data)).map
            (fun r => candMean seedDB r.policy)) := by
  refine ⟨stepIter_db_shape env s n d c rows total hp hc hr, ?_, ?_⟩
  · exact (runRecord_spec n d (ccPath s.i n) env.runOut rl_workloads 0 0 rows total hr).2.1
  · rfl

/-- C3 witness: the theorem applied at the concrete example pass. -/
theorem aggregate_mean_witness : exRows.length = rl_workloads.length :=
  (aggregate_mean exEnv exState (("AdaptiveLRU").data) (("Uses recency.").data)
    (("int x;").data) exRows (9 / 10) wfReply_parse rfl exRun_runRecord).2.1

theorem ps0_lt : policy_scores 0 < 1 / 2 := by
  show (([0.45454223305787467, 0.43985783443540666, 0.4074020886631043, 0.3219114100958022,
      0.4606533811310401] : List ℚ).sum
    / (([0.45454223305787467, 0.43985783443540666, 0.4074020886631043, 0.3219114100958022,
      (0.4606533811310401 : ℚ)] : List ℚ).length : ℚ)) < 1 / 2
  simp only [List.sum_cons, List.sum_nil, List.length_cons, List.length_nil]
  norm_num

theorem ps1_lt : policy_scores 1 < 1 / 2 := by
  show (([0.3573547794394494, 0.27289983516244354, 0.5087725688923012, 0.06456693483565899,
      0.6753672808393627] : List ℚ).sum
    / (([0.3573547794394494, 0.27289983516244354, 0.5087725688923012, 0.06456693483565899,
      (0.6753672808393627 : ℚ)] : List ℚ).length : ℚ)) < 1 / 2
  simp only [List.sum_cons, List.sum_nil, List.length_cons, List.length_nil]
  norm_num

theorem ps2_lt : policy_scores 2 < 1 / 2 := by
  show (([0.38901773944350737, 0.32972240516582263, 0.5230175409101099, 0.23460321368313578,
      0.6900525496418154] : List ℚ).sum
    / (([0.38901773944350737, 0.32972240516582263, 0.5230175409101099, 0.23460321368313578,
      (0.6900525496418154 : ℚ)] : List ℚ).length : ℚ)) < 1 / 2
  simp only [List.sum_cons, List.sum_nil, List.length_cons, List.length_nil]
  norm_num

theorem ps2_ge : 5 / 13 ≤ policy_scores 2 := by
  show 5 / 13 ≤ (([0.38901773944350737, 0.32972240516582263, 0.5230175409101099,
      0.23460321368313578, 0.6900525496418154] : List ℚ).sum
    / (([0.38901773944350737, 0.32972240516582263, 0.5230175409101099, 0.23460321368313578,
      (0.6900525496418154 : ℚ)] : List ℚ).length : ℚ))
  simp only [List.sum_cons, List.sum_nil, List.length_cons, List.length_nil]
  norm_num

theorem ps3_lt : policy_scores 3 < 1 / 2 := by
  show (([0.03709567109384967, 0.011593643367720617, 0.515161598323247,
      0.00026430697263517673, 0.008547620325799737] : List ℚ).sum
    / (([0.03709567109384967, 0.011593643367720617, 0.515161598323247,
      0.00026430697263517673, (0.008547620325799737 : ℚ)] : List ℚ).length : ℚ)) < 1 / 2
  simp only [List.sum_cons, List.sum_nil, List.length_cons, List.length_nil]
  norm_num

theorem ps4_lt : policy_scores 4 < 1 / 2 := by
  show (([0.4110201774653078, 0.19358477211349756, 0.5200312710592792, 0.14627399581453615,
      0.4621028207407054] : List ℚ).sum
    / (([0.4110201774653078, 0.19358477211349756, 0.5200312710592792, 0.14627399581453615,
      (0.4621028207407054 : ℚ)] : List ℚ).length : ℚ)) < 1 / 2
  simp only [List.sum_cons, List.sum_nil, List.length_cons, List.length_nil]
  norm_num

theorem ps5_lt : policy_scores 5 < 1 / 2 := by
  show (([0.33821173935846005, 0.2615846099982021, 0.524743749964974, 0.054986712238499026,
      0.698462878241108] : List ℚ).sum
    / (([0.33821173935846005, 0.2615846099982021, 0.524743749964974, 0.054986712238499026,
      (0.698462878241108 : ℚ)] : List ℚ).length : ℚ)) < 1 / 2
  simp only [List.sum_cons, List.sum_nil, List.length_cons, List.length_nil]
  norm_num

/-- The seed best score (the top-ranked aggregate row of the seeded ledger)
lies between 5/13 and 1/2. -/
theorem seed_bounds : 5 / 13 ≤ get_top_score seedDB ∧ get_top_score seedDB < 1 / 2 := by
  have he : get_top_score seedDB
      = max (policy_scores 0) (max (policy_scores 1) (max (policy_scores 2)
          (max (policy_scores 3) (max (policy_scores 4) (max (policy_scores 5) 0))))) := by
    rfl
  rw [he]
  constructor
  · exact le_trans ps2_ge (le_trans (le_max_left _ _)
      (le_trans (le_max_right _ _) (le_max_right _ _)))
  · exact max_lt ps0_lt (max_lt ps1_lt (max_lt ps2_lt (max_lt ps3_lt
      (max_lt ps4_lt (max_lt ps5_lt (by norm_num))))))

/-- Environment for the non-terminating example pass: every workload run
reports hit rate 1/2. -/
def c9Env : IterEnv :=
  { text := wfReply
    compileOk := true
    runOut := fun _ => exOut0 }

/-- The INIT state of the controller over the seeded ledger: `best_hit` (and
the initial `current_hit`) seeded from the top-ranked aggregate row. -/
def c9Init : LoopState :=
  { db := seedDB
    files := fun _ => none
    prev_name := none
    prev_desc := none
    prev_code := none
    best_hit := get_top_score seedDB
    current_hit := get_top_score seedDB
    i := 0 }

/-- The five per-workload rows of the non-terminating example pass. -/
def rows9 : List Trial :=
  [recordRow (("astar").data) (("AdaptiveLRU").data) (("Uses recency.").data) exCC (1 / 2) [],
   recordRow (("lbm").data) (("AdaptiveLRU").data) (("Uses recency.").data) exCC (1 / 2) [],
   recordRow (("mcf").data) (("AdaptiveLRU").data) (("Uses recency.").data) exCC (1 / 2) [],
   recordRow (("milc").data) (("AdaptiveLRU").data) (("Uses recency.").data) exCC (1 / 2) [],
   recordRow (("omnetpp").data) (("AdaptiveLRU").data) (("Uses recency.").data) exCC (1 / 2) []]

theorem c9_runRecord :
    runRecord (("AdaptiveLRU").data) (("Uses recency.").data) exCC c9Env.runOut
      rl_workloads 0 0 = (rows9, some (5 / 2)) := by
  have h0 : ∀ k : ℕ, parse_hit_rate (c9Env.runOut k) = some (1 / 2 : ℚ) := by
    intro k
    rw [show c9Env.runOut k = exOut0 from rfl]
    exact exOut0_rate
  unfold rl_workloads
  rw [runRecord_cons_some _ _ _ _ _ _ _ _ _ (h0 0)]
  rw [runRecord_cons_some _ _ _ _ _ _ _ _ _ (h0 1)]
  rw [runRecord_cons_some _ _ _ _ _ _ _ _ _ (h0 2)]
  rw [runRecord_cons_some _ _ _ _ _ _ _ _ _ (h0 3)]
  rw [runRecord_cons_some _ _ _ _ _ _ _ _ _ (h0 4)]
  unfold runRecord
  norm_num [rows9, recordRow]

theorem c9_no_term :
    ¬ (13 / 10 < (((5 : ℚ) / 2) / (rl_workloads.length : ℚ)) / feedbackBest c9Init) := by
  have hfb : feedbackBest c9Init = get_top_score seedDB := rfl
  rw [hfb, not_lt]
  obtain ⟨hlo, hhi⟩ := seed_bounds
  have hpos : (0 : ℚ) < get_top_score seedDB := lt_of_lt_of_le (by norm_num) hlo
  rw [show (((5 : ℚ) / 2) / (rl_workloads.length : ℚ)) = 1 / 2 from by
    norm_num [rl_workloads]]
  rw [div_le_iff₀ hpos]
  linarith

theorem c9_step_next :
    stepIter c9Env c9Init = .next
      { db := seedDB ++ rows9 ++ [recordRow (("all").data) (("AdaptiveLRU").data)
            (("Uses recency.").data) exCC (((5 : ℚ) / 2) / (rl_workloads.length : ℚ)) []]
        files := fun p => if p = ccPath c9Init.i (("AdaptiveLRU").data)
            then some (("int x;").data) else c9Init.files p
        prev_name := some (("AdaptiveLRU").data)
        prev_desc := some (("Uses recency.").data)
        prev_code := some (("int x;").data)
        best_hit := feedbackBest c9Init
        current_hit := ((5 : ℚ) / 2) / (rl_workloads.length : ℚ)
        i := c9Init.i + 1 } := by
  have hr2 : (runRecord (("AdaptiveLRU").data) (("Uses recency.").data)
      (ccPath c9Init.i (("AdaptiveLRU").data)) c9Env.runOut rl_workloads 0 0).2
        = some (5 / 2) := by
    rw [show ccPath c9Init.i (("AdaptiveLRU").data) = exCC from rfl, c9_runRecord]
  rw [stepIter_parse_some c9Env c9Init _ _ _ wfReply_parse]
  unfold afterParse
  rw [if_pos (show c9Env.compileOk = true from rfl)]
  rw [afterCompile_run_some c9Env c9Init _ _ _ (5 / 2) hr2]
  rw [if_neg c9_no_term]
  rw [show (runRecord (("AdaptiveLRU").data) (("Uses recency.").data)
      (ccPath c9Init.i (("AdaptiveLRU").data)) c9Env.runOut rl_workloads 0 0).1 = rows9 from by
    rw [show ccPath c9Init.i (("AdaptiveLRU").data) = exCC from rfl, c9_runRecord]]
  rfl

/-- C9 counterexample: one evaluated pass over the seeded ledger whose
aggregate score 1/2 exceeds the seed best score, with single-pass ratio under
1.3: after the pass the controller's best score still holds the seed value,
strictly below an aggregate score already evaluated and recorded — the best
score does not equal the maximum of the seed score and all aggregate scores
evaluated so far at every point. -/
theorem best_lags_cex :
    (resState (stepIter c9Env c9Init)).best_hit
        < (resState (stepIter c9Env c9Init)).current_hit
    ∧ (resState (stepIter c9Env c9Init)).current_hit
        ∈ (((resState (stepIter c9Env c9Init)).db.filter
            (fun r => r.workload == ("all").data)).map Trial.score) := by
  rw [c9_step_next]
  constructor
  · show feedbackBest c9Init < ((5 : ℚ) / 2) / (rl_workloads.length : ℚ)
    rw [show feedbackBest c9Init = get_top_score seedDB from rfl]
    rw [show (((5 : ℚ) / 2) / (rl_workloads.length : ℚ)) = 1 / 2 from by
      norm_num [rl_workloads]]
    exact seed_bounds.2
  · show (((5 : ℚ) / 2) / (rl_workloads.length : ℚ)) ∈ _
    apply List.mem_map.mpr
    refine ⟨recordRow (("all").data) (("AdaptiveLRU").data) (("Uses recency.").data) exCC
      (((5 : ℚ) / 2) / (rl_workloads.length : ℚ)) [], ?_, rfl⟩
    apply List.mem_filter.mpr
    refine ⟨?_, by decide⟩
    exact List.mem_append_right _ (List.mem_cons_self _ _)

/-- C8 amended witness: the characterization applied at the concrete input
`"x!"`, which contains the alphanumeric character `x`. -/
theorem sanitize_ne_empty_iff_witness : sanitize (("x!").data) ≠ [] :=
  (sanitize_ne_empty_iff (("x!").data)).mpr ⟨'x', by decide, by decide⟩
